import Mathlib

/-!
Verification development for the pharaoh repository: a minimal local
static-file HTTP server.  The repository's only source file
(src/server.py) instantiates a TCP server on port 8000 whose request
handler is the standard library's SimpleHTTPRequestHandler; the handler
and loop bodies are therefore not part of the repository's own sources.
Following the specification, the request handler and server loop are
modelled here as executable Lean functions: the filesystem is an
explicit finite map from root-relative segment paths to nodes, requests
and responses are plain records, and request handling is a pure function
of the filesystem snapshot and the request.
-/

/-- Port bound by the server, from src/server.py. -/
def PORT : Nat := 8000

/-- Modelled from the spec: a filesystem node under the document root is
either a regular file (with its bytes and a readability flag, since the
spec distinguishes unreadable files for 403) or a directory.  The code
deciding this lives in SimpleHTTPRequestHandler, which is not in src/. -/
inductive FSNode where
  | file (content : List Nat) (readable : Bool)
  | dir
deriving DecidableEq, Repr

/-- Modelled from the spec: the filesystem under the document root, a
finite association of root-relative segment paths to nodes.  The empty
segment list denotes the document root itself. -/
structure FileSystem where
  entries : List (List String × FSNode)
deriving DecidableEq, Repr

/-- Look up the node stored at a root-relative path. -/
def FileSystem.lookup (fs : FileSystem) (p : List String) : Option FSNode :=
  List.lookup p fs.entries

/-- An HTTP request as the spec's data model describes it: a method and
a raw request path. -/
structure Request where
  method : String
  path : String
deriving DecidableEq, Repr

/-- An HTTP response: status code, the content-type and content-length
headers, and the body as a byte sequence. -/
structure Response where
  statusCode : Nat
  contentType : Option String
  contentLength : Option Nat
  body : List Nat
deriving DecidableEq, Repr

/-- Value of a hexadecimal digit character, if it is one. -/
def hexVal (c : Char) : Option Nat :=
  if '0' ≤ c ∧ c ≤ '9' then some (c.toNat - '0'.toNat)
  else if 'a' ≤ c ∧ c ≤ 'f' then some (c.toNat - 'a'.toNat + 10)
  else if 'A' ≤ c ∧ c ≤ 'F' then some (c.toNat - 'A'.toNat + 10)
  else none

/-- Modelled from the spec: decode percent-escapes in the request path.
A malformed escape makes the whole path invalid. -/
def percentDecode : List Char → Option (List Char)
  | [] => some []
  | '%' :: h1 :: h2 :: rest =>
    match hexVal h1, hexVal h2 with
    | some a, some b => (percentDecode rest).map (fun cs => Char.ofNat (16 * a + b) :: cs)
    | _, _ => none
  | '%' :: _ => none
  | c :: rest => (percentDecode rest).map (fun cs => c :: cs)

/-- Split a decoded path on slashes into raw segments. -/
def splitSegsAux : List Char → List Char → List String
  | [], acc => [String.mk acc.reverse]
  | '/' :: rest, acc => String.mk acc.reverse :: splitSegsAux rest []
  | c :: rest, acc => splitSegsAux rest (c :: acc)

/-- Split a decoded path on slashes. -/
def splitSegs (cs : List Char) : List String :=
  splitSegsAux cs []

/-- Modelled from the spec: one step of collapsing path segments.  Empty
segments and single dots disappear, a dot-dot pops the last collapsed
segment and is rejected when there is nothing left to pop (it would
escape the document root), and any other segment is appended. -/
def collapseStep (acc : Option (List String)) (seg : String) : Option (List String) :=
  match acc with
  | none => none
  | some st =>
    if seg = "" ∨ seg = "." then some st
    else if seg = ".." then
      match st with
      | [] => none
      | _ :: _ => some st.dropLast
    else some (st ++ [seg])

/-- Modelled from the spec: normalize a request path — decode
percent-escapes, split on slashes, and collapse segments, rejecting
(`none`) any path that would escape the document root.  This models the
path translation SimpleHTTPRequestHandler performs, which is not in
src/. -/
def normalizePath (path : String) : Option (List String) :=
  match percentDecode path.data with
  | none => none
  | some cs => (splitSegs cs).foldl collapseStep (some [])

/-- Bytes of an ASCII string, used for generated response bodies. -/
def asciiBytes (s : String) : List Nat :=
  s.data.map Char.toNat

/-- Modelled from the spec: a best-effort extension-to-content-type
mapping. -/
def mimeMap : List (String × String) :=
  [("html", "text/html"), ("htm", "text/html"), ("css", "text/css"),
   ("js", "text/javascript"), ("png", "image/png"), ("jpg", "image/jpeg"),
   ("jpeg", "image/jpeg"), ("gif", "image/gif"), ("txt", "text/plain")]

/-- The extensions the content-type mapping knows about. -/
def knownExtensions : List String :=
  mimeMap.map Prod.fst

/-- Modelled from the spec: content type for an extension, defaulting to
the generic binary/octet type for unknown extensions. -/
def contentTypeFor (ext : String) : String :=
  (List.lookup ext mimeMap).getD "application/octet-stream"

/-- Characters after the last dot of a file name, if any dot exists. -/
def afterLastDot : List Char → Option (List Char)
  | [] => none
  | c :: rest =>
    match afterLastDot rest with
    | some e => some e
    | none => if c = '.' then some rest else none

/-- Extension of a file name: the part after the last dot, or the empty
string when there is no dot. -/
def extOf (name : String) : String :=
  match afterLastDot name.data with
  | some e => String.mk e
  | none => ""

/-- Modelled from the spec: an error response carrying a short
human-readable HTML body. -/
def errorResponse (code : Nat) (msg : String) : Response :=
  { statusCode := code
    contentType := some "text/html"
    contentLength := some (asciiBytes msg).length
    body := asciiBytes msg }

/-- Modelled from the spec: a successful file response — 200, content
type derived from the extension, content-length matching the byte count,
and the file bytes as body. -/
def fileResponse (name : String) (content : List Nat) : Response :=
  { statusCode := 200
    contentType := some (contentTypeFor (extOf name))
    contentLength := some content.length
    body := content }

/-- Names of the immediate children of a directory in the filesystem
snapshot. -/
def childNames (fs : FileSystem) (segs : List String) : List String :=
  fs.entries.filterMap (fun e =>
    if e.1.dropLast = segs ∧ e.1 ≠ [] then some (e.1.getLastD "") else none)

/-- Lexicographic byte-order comparison on character lists, used as the
fixed name order of directory listings. -/
def strListLe : List Char → List Char → Bool
  | [], _ => true
  | _ :: _, [] => false
  | a :: as, b :: bs =>
    if a.toNat < b.toNat then true
    else if b.toNat < a.toNat then false
    else strListLe as bs

/-- Lexicographic comparison on strings. -/
def strLe (a b : String) : Bool :=
  strListLe a.data b.data

/-- The fixed total name order used by the directory listing. -/
def nameLe (a b : String) : Prop :=
  strLe a b = true

instance : DecidableRel nameLe := fun a b => by
  unfold nameLe; infer_instance

/-- Sort names ascending, making the directory listing deterministic. -/
def sortNames (l : List String) : List String :=
  List.insertionSort nameLe l

/-- Modelled from the spec: the generated HTML enumerating a directory's
entries. -/
def listingHtml (names : List String) : String :=
  "<html><body><ul>" ++
    (names.map (fun n => "<li>" ++ n ++ "</li>")).foldr (fun a b => a ++ b) "" ++
    "</ul></body></html>"

/-- Modelled from the spec: the directory-listing response, enumerating
the directory's entries in sorted name order. -/
def listingResponse (fs : FileSystem) (segs : List String) : Response :=
  { statusCode := 200
    contentType := some "text/html"
    contentLength := some (asciiBytes (listingHtml (sortNames (childNames fs segs)))).length
    body := asciiBytes (listingHtml (sortNames (childNames fs segs))) }

/-- Modelled from the spec: resolve a normalized path against the
document root and produce the response, together with the list of
filesystem paths the handler dereferences while doing so.  A regular
file is served (403 when unreadable), a directory serves its index.html
when that entry is a readable regular file and a sorted listing
otherwise, and a missing path yields 404. -/
def handleResolved (fs : FileSystem) (segs : List String) :
    Response × List (List String) :=
  match fs.lookup segs with
  | none => (errorResponse 404 "404 Not Found", [segs])
  | some (FSNode.file c r) =>
    if r then (fileResponse (segs.getLastD "") c, [segs])
    else (errorResponse 403 "403 Forbidden", [segs])
  | some FSNode.dir =>
    match fs.lookup (segs ++ ["index.html"]) with
    | some (FSNode.file c r) =>
      if r then (fileResponse "index.html" c, [segs, segs ++ ["index.html"]])
      else (errorResponse 403 "403 Forbidden", [segs, segs ++ ["index.html"]])
    | _ => (listingResponse fs segs, [segs, segs ++ ["index.html"]])

/-- Modelled from the spec: the per-request decision tree of the request
handler, which in the source is SimpleHTTPRequestHandler (not in src/).
Step 1 rejects unsupported methods with 405; step 2 normalizes the path
and rejects traversal with 400; step 3 resolves the path and serves it.
The second component records every filesystem path the handler reads. -/
def handleCore (fs : FileSystem) (method : String) (path : String) :
    Response × List (List String) :=
  if method = "GET" ∨ method = "HEAD" then
    match normalizePath path with
    | none => (errorResponse 400 "400 Bad Request", [])
    | some segs => handleResolved fs segs
  else (errorResponse 405 "405 Method Not Allowed", [])

/-- Modelled from the spec: the response the handler writes.  A HEAD
request gets the same status and headers as the equivalent GET but an
empty body. -/
def handle (fs : FileSystem) (method : String) (path : String) : Response :=
  let r := (handleCore fs method path).1
  if method = "HEAD" then { r with body := [] } else r

/-- The filesystem paths the handler reads while serving one request. -/
def pathsRead (fs : FileSystem) (method : String) (path : String) :
    List (List String) :=
  (handleCore fs method path).2

/-- A root-relative segment path that stays inside the document root:
no upward, dot or empty segments remain after normalization. -/
def insideRoot (q : List String) : Prop :=
  ".." ∉ q ∧ "." ∉ q ∧ "" ∉ q

instance (q : List String) : Decidable (insideRoot q) := by
  unfold insideRoot; infer_instance

/-- The status codes the handler can produce. -/
def validStatuses : List Nat := [200, 400, 403, 404, 405]

/-- Modelled from the spec: the server loop dispatches every incoming
request to the handler in order; serving a request never stops the loop,
so every request of any finite sequence receives a response. -/
def serveAll (fs : FileSystem) (reqs : List Request) : List Response :=
  reqs.map (fun r => handle fs r.method r.path)

/-- Modelled from the spec: process start.  A bind failure terminates
startup (`none`); once bound, the loop serves every request of the
incoming sequence.  The bind/accept code (socketserver.TCPServer and
serve_forever) is not in src/. -/
def startServer (bindOk : Bool) (fs : FileSystem) (reqs : List Request) :
    Option (List Response) :=
  if bindOk then some (serveAll fs reqs) else none

/-- The filesystem effects a handler could in principle perform; the
spec's frame condition says only reads ever happen. -/
inductive FSOp where
  | read (path : List String)
  | write (path : List String) (content : List Nat)
  | create (path : List String)
  | delete (path : List String)
deriving DecidableEq, Repr

/-- Apply one filesystem effect to a filesystem snapshot. -/
def applyOp (fs : FileSystem) : FSOp → FileSystem
  | FSOp.read _ => fs
  | FSOp.write p c => FileSystem.mk ((p, FSNode.file c true) :: fs.entries)
  | FSOp.create p => FileSystem.mk ((p, FSNode.dir) :: fs.entries)
  | FSOp.delete p => FileSystem.mk (fs.entries.filter (fun e => e.1 != p))

/-- Apply a sequence of filesystem effects. -/
def applyOps (fs : FileSystem) (ops : List FSOp) : FileSystem :=
  ops.foldl applyOp fs

/-- The filesystem effects the handler performs for one request: it only
reads the paths it resolves. -/
def requestOps (fs : FileSystem) (method path : String) : List FSOp :=
  (pathsRead fs method path).map FSOp.read

/-- The filesystem as it stands after the server loop has handled a
sequence of requests, each request's effects applied in turn. -/
def serveAllFS (fs : FileSystem) : List Request → FileSystem
  | [] => fs
  | r :: rs => serveAllFS (applyOps fs (requestOps fs r.method r.path)) rs

/-- A concrete empty document root, used for counterexamples. -/
def fsEmpty : FileSystem :=
  FileSystem.mk []

/-- A concrete document root with one readable page, used for witnesses. -/
def fsPage : FileSystem :=
  FileSystem.mk [(["a.html"], FSNode.file [104, 105] true)]

/-- A concrete document root with a directory holding an index.html and
a directory without one, used for witnesses and counterexamples. -/
def fsDirs : FileSystem :=
  FileSystem.mk [([], FSNode.dir), (["d"], FSNode.dir),
    (["d", "index.html"], FSNode.file [120] true),
    (["e"], FSNode.dir), (["e", "b.txt"], FSNode.file [1] true),
    (["e", "a.txt"], FSNode.file [2] true)]

/-! Helper lemmas about the name order used by directory listings. -/

lemma strListLe_cons (a b : Char) (as bs : List Char) :
    strListLe (a :: as) (b :: bs) = true ↔
      a.toNat < b.toNat ∨ (a.toNat = b.toNat ∧ strListLe as bs = true) := by
  simp only [strListLe]
  by_cases h1 : a.toNat < b.toNat
  · simp [h1]
  · by_cases h2 : b.toNat < a.toNat
    · simp [h1, h2]; omega
    · have he : a.toNat = b.toNat := by omega
      simp [h1, h2, he]

lemma strListLe_total (as bs : List Char) :
    strListLe as bs = true ∨ strListLe bs as = true := by
  induction as generalizing bs with
  | nil => left; rfl
  | cons a as ih =>
    cases bs with
    | nil => right; rfl
    | cons b bs =>
      rcases Nat.lt_trichotomy a.toNat b.toNat with h | h | h
      · left; rw [strListLe_cons]; exact Or.inl h
      · rcases ih bs with hr | hr
        · left; rw [strListLe_cons]; exact Or.inr ⟨h, hr⟩
        · right; rw [strListLe_cons]; exact Or.inr ⟨h.symm, hr⟩
      · right; rw [strListLe_cons]; exact Or.inl h

lemma strListLe_trans (as bs cs : List Char)
    (h1 : strListLe as bs = true) (h2 : strListLe bs cs = true) :
    strListLe as cs = true := by
  induction as generalizing bs cs with
  | nil => rfl
  | cons a as ih =>
    cases bs with
    | nil => simp [strListLe] at h1
    | cons b bs =>
      cases cs with
      | nil => simp [strListLe] at h2
      | cons c cs =>
        rw [strListLe_cons] at h1 h2 ⊢
        rcases h1 with h1 | ⟨h1e, h1r⟩ <;> rcases h2 with h2 | ⟨h2e, h2r⟩
        · left; omega
        · left; omega
        · left; omega
        · exact Or.inr ⟨by omega, ih bs cs h1r h2r⟩

instance : IsTotal String nameLe :=
  ⟨fun a b => strListLe_total a.data b.data⟩

instance : IsTrans String nameLe :=
  ⟨fun _ _ _ h1 h2 => strListLe_trans _ _ _ h1 h2⟩

lemma sortNames_sorted (l : List String) : List.Sorted nameLe (sortNames l) :=
  List.sorted_insertionSort nameLe l

/-! Helper lemmas about path normalization. -/

lemma foldl_collapseStep_none (segs : List String) :
    segs.foldl collapseStep none = none := by
  induction segs with
  | nil => rfl
  | cons s t ih => simpa [collapseStep] using ih

lemma insideRoot_nil : insideRoot [] := by
  simp [insideRoot]

lemma insideRoot_dropLast (st : List String) (h : insideRoot st) :
    insideRoot st.dropLast := by
  refine ⟨fun hm => h.1 ?_, fun hm => h.2.1 ?_, fun hm => h.2.2 ?_⟩ <;>
    exact (List.dropLast_sublist st).subset hm

lemma collapse_preserves (segs : List String) :
    ∀ st res, insideRoot st →
      List.foldl collapseStep (some st) segs = some res → insideRoot res := by
  induction segs with
  | nil =>
    intro st res h hf
    rw [List.foldl_nil] at hf
    exact (Option.some.inj hf) ▸ h
  | cons s t ih =>
    intro st res h hf
    rw [List.foldl_cons] at hf
    by_cases h1 : s = "" ∨ s = "."
    · rw [show collapseStep (some st) s = some st from by
        rcases h1 with rfl | rfl <;> simp [collapseStep]] at hf
      exact ih st res h hf
    · by_cases h2 : s = ".."
      · cases st with
        | nil =>
          rw [show collapseStep (some []) s = none from by
            subst h2; simp [collapseStep]] at hf
          rw [foldl_collapseStep_none] at hf
          exact absurd hf (by simp)
        | cons a as =>
          rw [show collapseStep (some (a :: as)) s = some ((a :: as).dropLast) from by
            subst h2; simp [collapseStep]] at hf
          exact ih _ res (insideRoot_dropLast _ h) hf
      · push_neg at h1
        rw [show collapseStep (some st) s = some (st ++ [s]) from by
          simp [collapseStep, h1.1, h1.2, h2]] at hf
        refine ih _ res ?_ hf
        refine ⟨fun hm => ?_, fun hm => ?_, fun hm => ?_⟩ <;>
          rcases List.mem_append.mp hm with hm | hm
        · exact h.1 hm
        · exact h2 (List.mem_singleton.mp hm).symm
        · exact h.2.1 hm
        · exact h1.2 (List.mem_singleton.mp hm).symm
        · exact h.2.2 hm
        · exact h1.1 (List.mem_singleton.mp hm).symm

lemma normalizePath_insideRoot (p : String) (segs : List String)
    (h : normalizePath p = some segs) : insideRoot segs := by
  unfold normalizePath at h
  cases hd : percentDecode p.data with
  | none => rw [hd] at h; exact absurd h (by simp)
  | some cs =>
    rw [hd] at h
    exact collapse_preserves (splitSegs cs) [] segs insideRoot_nil h

lemma insideRoot_append_index (segs : List String) (h : insideRoot segs) :
    insideRoot (segs ++ ["index.html"]) := by
  refine ⟨fun hm => ?_, fun hm => ?_, fun hm => ?_⟩ <;>
    rcases List.mem_append.mp hm with hm2 | hm2
  · exact h.1 hm2
  · exact absurd (List.mem_singleton.mp hm2) (by decide)
  · exact h.2.1 hm2
  · exact absurd (List.mem_singleton.mp hm2) (by decide)
  · exact h.2.2 hm2
  · exact absurd (List.mem_singleton.mp hm2) (by decide)

/-! Helper lemmas about the handler. -/

lemma handleResolved_reads (fs : FileSystem) (segs q : List String)
    (hq : q ∈ (handleResolved fs segs).2) :
    q = segs ∨ q = segs ++ ["index.html"] := by
  unfold handleResolved at hq
  split at hq
  · simp at hq; exact Or.inl hq
  · split at hq
    · simp at hq; exact Or.inl hq
    · simp at hq; exact Or.inl hq
  · split at hq
    · split at hq
      · simp at hq; tauto
      · simp at hq; tauto
    · simp at hq; tauto

lemma handleResolved_status (fs : FileSystem) (segs : List String) :
    (handleResolved fs segs).1.statusCode ∈ validStatuses := by
  unfold handleResolved
  split
  · simp [errorResponse, validStatuses]
  · split <;> simp [errorResponse, fileResponse, validStatuses]
  · split
    · split <;> simp [errorResponse, fileResponse, validStatuses]
    · simp [listingResponse, validStatuses]

lemma handleCore_status (fs : FileSystem) (method path : String) :
    (handleCore fs method path).1.statusCode ∈ validStatuses := by
  unfold handleCore
  split
  · split
    · simp [errorResponse, validStatuses]
    · exact handleResolved_status fs _
  · simp [errorResponse, validStatuses]

lemma handle_status (fs : FileSystem) (method path : String) :
    (handle fs method path).statusCode ∈ validStatuses := by
  have hcore := handleCore_status fs method path
  unfold handle
  split
  · simpa using hcore
  · exact hcore

lemma handleCore_head_eq_get (fs : FileSystem) (path : String) :
    handleCore fs "HEAD" path = handleCore fs "GET" path := by
  simp [handleCore]

lemma contentTypeFor_unknown (e : String) (he : e ∉ knownExtensions) :
    contentTypeFor e = "application/octet-stream" := by
  simp only [knownExtensions, mimeMap, List.map, List.mem_cons,
    List.not_mem_nil, or_false, not_or] at he
  obtain ⟨h1, h2, h3, h4, h5, h6, h7, h8, h9⟩ := he
  have e1 : (e == "html") = false := by simp [h1]
  have e2 : (e == "htm") = false := by simp [h2]
  have e3 : (e == "css") = false := by simp [h3]
  have e4 : (e == "js") = false := by simp [h4]
  have e5 : (e == "png") = false := by simp [h5]
  have e6 : (e == "jpg") = false := by simp [h6]
  have e7 : (e == "jpeg") = false := by simp [h7]
  have e8 : (e == "gif") = false := by simp [h8]
  have e9 : (e == "txt") = false := by simp [h9]
  simp [contentTypeFor, mimeMap, List.lookup, e1, e2, e3, e4, e5, e6, e7, e8, e9]

lemma applyOps_map_read (fs : FileSystem) (l : List (List String)) :
    applyOps fs (l.map FSOp.read) = fs := by
  induction l with
  | nil => rfl
  | cons q t ih => simpa [applyOps, applyOp] using ih

/-! Claim theorems. -/

/-- C1 counterexample: a POST request whose normalized path escapes the
document root is answered 405, not 400 or 403, because the handler's
method check precedes its traversal check. -/
theorem post_traversal_answered_405 :
    normalizePath "/../etc/passwd" = none ∧
    ¬((handle fsEmpty "POST" "/../etc/passwd").statusCode = 400 ∨
      (handle fsEmpty "POST" "/../etc/passwd").statusCode = 403) := by
  decide

/-- C1 (amended): for every GET or HEAD request whose normalized path
would escape the document root, the handler responds 400 or 403. -/
theorem traversal_rejected (fs : FileSystem) (method path : String)
    (hm : method = "GET" ∨ method = "HEAD")
    (hp : normalizePath path = none) :
    (handle fs method path).statusCode = 400 ∨
    (handle fs method path).statusCode = 403 := by
  left
  rcases hm with rfl | rfl <;> simp [handle, handleCore, hp, errorResponse]

/-- Witness for the traversal-rejection theorem at a concrete escaping
request. -/
theorem traversal_rejected_witness :
    (handle fsEmpty "GET" "/../secret.txt").statusCode = 400 ∨
    (handle fsEmpty "GET" "/../secret.txt").statusCode = 403 :=
  traversal_rejected fsEmpty "GET" "/../secret.txt" (Or.inl rfl) (by decide)

/-- C2: every filesystem path the handler reads while serving any
request stays inside the document root; after normalization no upward,
dot or empty segments remain, so the resolved location cannot lie
outside the root. -/
theorem reads_stay_inside_root (fs : FileSystem) (method path : String)
    (q : List String) (hq : q ∈ pathsRead fs method path) :
    insideRoot q := by
  unfold pathsRead handleCore at hq
  split at hq
  · cases hn : normalizePath path with
    | none => rw [hn] at hq; simp at hq
    | some segs =>
      rw [hn] at hq
      have hin := normalizePath_insideRoot path segs hn
      rcases handleResolved_reads fs segs q hq with rfl | rfl
      · exact hin
      · exact insideRoot_append_index segs hin
  · simp at hq

/-- Witness for the inside-root theorem at a concrete request. -/
theorem reads_stay_inside_root_witness :
    ["a.html"] ∈ pathsRead fsPage "GET" "/a.html" ∧ insideRoot ["a.html"] :=
  ⟨by decide, reads_stay_inside_root fsPage "GET" "/a.html" ["a.html"] (by decide)⟩

/-- C3: every request whose method is neither GET nor HEAD is answered
405 Method Not Allowed. -/
theorem unsupported_method_405 (fs : FileSystem) (method path : String)
    (h1 : method ≠ "GET") (h2 : method ≠ "HEAD") :
    (handle fs method path).statusCode = 405 := by
  simp [handle, handleCore, h1, h2, errorResponse]

/-- Witness for the unsupported-method theorem at a concrete POST. -/
theorem unsupported_method_405_witness :
    (handle fsEmpty "POST" "/").statusCode = 405 :=
  unsupported_method_405 fsEmpty "POST" "/" (by decide) (by decide)

/-- C4: a GET request whose normalized path resolves to an existing
readable regular file is answered 200 with the exact file bytes as body,
a matching content-length, and a content type derived from the file's
extension; unknown extensions map to the generic binary/octet type. -/
theorem get_existing_file_served (fs : FileSystem) (path : String)
    (segs : List String) (content : List Nat)
    (h1 : normalizePath path = some segs)
    (h2 : fs.lookup segs = some (FSNode.file content true)) :
    (handle fs "GET" path).statusCode = 200 ∧
    (handle fs "GET" path).body = content ∧
    (handle fs "GET" path).contentLength = some content.length ∧
    (handle fs "GET" path).contentType =
      some (contentTypeFor (extOf (segs.getLastD ""))) ∧
    ∀ e, e ∉ knownExtensions → contentTypeFor e = "application/octet-stream" := by
  refine ⟨?_, ?_, ?_, ?_, fun e he => contentTypeFor_unknown e he⟩ <;>
    simp [handle, handleCore, h1, handleResolved, h2, fileResponse]

/-- Witness for the GET file-serving theorem at a concrete file. -/
theorem get_existing_file_served_witness :
    (handle fsPage "GET" "/a.html").statusCode = 200 ∧
    (handle fsPage "GET" "/a.html").body = [104, 105] ∧
    (handle fsPage "GET" "/a.html").contentLength =
      some ([104, 105] : List Nat).length ∧
    (handle fsPage "GET" "/a.html").contentType =
      some (contentTypeFor (extOf ((["a.html"] : List String).getLastD ""))) ∧
    ∀ e, e ∉ knownExtensions → contentTypeFor e = "application/octet-stream" :=
  get_existing_file_served fsPage "/a.html" ["a.html"] [104, 105]
    (by decide) (by decide)

/-- C5: a HEAD request to an existing file yields the same status and
headers as the equivalent GET, with an empty body. -/
theorem head_same_as_get (fs : FileSystem) (path : String)
    (segs : List String) (content : List Nat) (r : Bool)
    (_h1 : normalizePath path = some segs)
    (_h2 : fs.lookup segs = some (FSNode.file content r)) :
    (handle fs "HEAD" path).statusCode = (handle fs "GET" path).statusCode ∧
    (handle fs "HEAD" path).contentType = (handle fs "GET" path).contentType ∧
    (handle fs "HEAD" path).contentLength = (handle fs "GET" path).contentLength ∧
    (handle fs "HEAD" path).body = [] := by
  have hc := handleCore_head_eq_get fs path
  refine ⟨?_, ?_, ?_, ?_⟩ <;> simp [handle, hc]

/-- Witness for the HEAD-equals-GET theorem at a concrete file. -/
theorem head_same_as_get_witness :
    (handle fsPage "HEAD" "/a.html").statusCode =
      (handle fsPage "GET" "/a.html").statusCode ∧
    (handle fsPage "HEAD" "/a.html").contentType =
      (handle fsPage "GET" "/a.html").contentType ∧
    (handle fsPage "HEAD" "/a.html").contentLength =
      (handle fsPage "GET" "/a.html").contentLength ∧
    (handle fsPage "HEAD" "/a.html").body = [] :=
  head_same_as_get fsPage "/a.html" ["a.html"] [104, 105] true
    (by decide) (by decide)

/-- C6 counterexample: a POST request to a nonexistent path is answered
405, not 404, because the handler's method check comes first. -/
theorem post_missing_answered_405 :
    normalizePath "/missing.html" = some ["missing.html"] ∧
    fsEmpty.lookup ["missing.html"] = none ∧
    (handle fsEmpty "POST" "/missing.html").statusCode ≠ 404 := by
  decide

/-- C6 (amended): for every GET or HEAD request whose resolved path does
not exist, the status is 404; the GET response carries the minimal
human-readable body and the HEAD response omits the body. -/
theorem missing_path_404 (fs : FileSystem) (method path : String)
    (segs : List String)
    (hm : method = "GET" ∨ method = "HEAD")
    (h1 : normalizePath path = some segs)
    (h2 : fs.lookup segs = none) :
    (handle fs method path).statusCode = 404 ∧
    (handle fs "GET" path).body = asciiBytes "404 Not Found" ∧
    asciiBytes "404 Not Found" ≠ [] ∧
    (handle fs "HEAD" path).body = [] := by
  refine ⟨?_, ?_, by decide, ?_⟩
  · rcases hm with rfl | rfl <;>
      simp [handle, handleCore, h1, handleResolved, h2, errorResponse]
  · simp [handle, handleCore, h1, handleResolved, h2, errorResponse]
  · simp [handle]

/-- Witness for the 404 theorem at a concrete missing path. -/
theorem missing_path_404_witness :
    (handle fsEmpty "GET" "/missing.html").statusCode = 404 ∧
    (handle fsEmpty "GET" "/missing.html").body = asciiBytes "404 Not Found" ∧
    asciiBytes "404 Not Found" ≠ [] ∧
    (handle fsEmpty "HEAD" "/missing.html").body = [] :=
  missing_path_404 fsEmpty "GET" "/missing.html" ["missing.html"]
    (Or.inl rfl) (by decide) (by decide)

/-- C7 counterexample: a POST request to an existing directory that
contains an index.html is answered 405, so not every request to a
directory serves the index file or a listing with 200. -/
theorem post_directory_answered_405 :
    fsDirs.lookup ["d"] = some FSNode.dir ∧
    fsDirs.lookup ["d", "index.html"] = some (FSNode.file [120] true) ∧
    (handle fsDirs "POST" "/d").statusCode = 405 ∧
    ¬((handle fsDirs "POST" "/d").statusCode = 200 ∧
      (handle fsDirs "POST" "/d").body = [120]) := by
  decide

/-- C7 (amended): for every GET request resolving to a directory, a
readable index.html inside it is served with 200 and its exact bytes;
with no index.html entry a generated HTML listing is returned with 200,
its entries enumerated in the fixed sorted name order. -/
theorem get_directory_index_or_listing (fs : FileSystem) (path : String)
    (segs : List String)
    (h1 : normalizePath path = some segs)
    (h2 : fs.lookup segs = some FSNode.dir) :
    (∀ content,
      fs.lookup (segs ++ ["index.html"]) = some (FSNode.file content true) →
      (handle fs "GET" path).statusCode = 200 ∧
      (handle fs "GET" path).body = content) ∧
    (fs.lookup (segs ++ ["index.html"]) = none →
      (handle fs "GET" path).statusCode = 200 ∧
      (handle fs "GET" path).body =
        asciiBytes (listingHtml (sortNames (childNames fs segs))) ∧
      List.Sorted nameLe (sortNames (childNames fs segs))) := by
  constructor
  · intro content hidx
    constructor <;>
      simp [handle, handleCore, h1, handleResolved, h2, hidx, fileResponse]
  · intro hidx
    refine ⟨?_, ?_, sortNames_sorted _⟩ <;>
      simp [handle, handleCore, h1, handleResolved, h2, hidx, listingResponse]

/-- Witness for the directory theorem at a concrete directory with an
index.html. -/
theorem get_directory_index_or_listing_witness :
    (∀ content,
      fsDirs.lookup (["d"] ++ ["index.html"]) = some (FSNode.file content true) →
      (handle fsDirs "GET" "/d").statusCode = 200 ∧
      (handle fsDirs "GET" "/d").body = content) ∧
    (fsDirs.lookup (["d"] ++ ["index.html"]) = none →
      (handle fsDirs "GET" "/d").statusCode = 200 ∧
      (handle fsDirs "GET" "/d").body =
        asciiBytes (listingHtml (sortNames (childNames fsDirs ["d"]))) ∧
      List.Sorted nameLe (sortNames (childNames fsDirs ["d"]))) :=
  get_directory_index_or_listing fsDirs "/d" ["d"] (by decide) (by decide)

/-- C8: once bound, the server loop answers every request of any finite
incoming sequence with an HTTP response and keeps going — handling never
terminates the loop — while a bind failure stops startup. -/
theorem server_loop_serves_every_request (bindOk : Bool) (fs : FileSystem)
    (reqs : List Request) :
    (bindOk = true →
      startServer bindOk fs reqs = some (serveAll fs reqs) ∧
      (serveAll fs reqs).length = reqs.length ∧
      ∀ resp ∈ serveAll fs reqs, resp.statusCode ∈ validStatuses) ∧
    (bindOk = false → startServer bindOk fs reqs = none) := by
  constructor
  · intro hb
    refine ⟨by simp [startServer, hb], by simp [serveAll], ?_⟩
    intro resp hr
    rcases List.mem_map.mp hr with ⟨req, _, rfl⟩
    exact handle_status fs req.method req.path
  · intro hb
    simp [startServer, hb]

/-- Witness for the server-loop theorem on a concrete two-request run
and a concrete failed bind. -/
theorem server_loop_serves_every_request_witness :
    (startServer true fsPage [Request.mk "GET" "/a.html", Request.mk "POST" "/x"] =
      some (serveAll fsPage [Request.mk "GET" "/a.html", Request.mk "POST" "/x"]) ∧
     (serveAll fsPage [Request.mk "GET" "/a.html", Request.mk "POST" "/x"]).length =
      ([Request.mk "GET" "/a.html", Request.mk "POST" "/x"] : List Request).length ∧
     ∀ resp ∈ serveAll fsPage [Request.mk "GET" "/a.html", Request.mk "POST" "/x"],
       resp.statusCode ∈ validStatuses) ∧
    startServer false fsPage [] = none :=
  ⟨(server_loop_serves_every_request true fsPage
      [Request.mk "GET" "/a.html", Request.mk "POST" "/x"]).1 rfl,
   (server_loop_serves_every_request false fsPage []).2 rfl⟩

/-- C9: handling any sequence of requests leaves the filesystem exactly
as it was, and every filesystem effect the handler performs is a read —
no write, create or delete ever occurs. -/
theorem no_filesystem_writes (fs : FileSystem) (reqs : List Request) :
    serveAllFS fs reqs = fs ∧
    ∀ method path op, op ∈ requestOps fs method path → ∃ q, op = FSOp.read q := by
  constructor
  · induction reqs generalizing fs with
    | nil => rfl
    | cons r rs ih =>
      show serveAllFS (applyOps fs (requestOps fs r.method r.path)) rs = fs
      rw [requestOps, applyOps_map_read]
      exact ih fs
  · intro method path op hop
    rcases List.mem_map.mp hop with ⟨q, _, rfl⟩
    exact ⟨q, rfl⟩

/-- Witness for the no-writes theorem on a concrete request sequence. -/
theorem no_filesystem_writes_witness :
    serveAllFS fsPage [Request.mk "GET" "/a.html"] = fsPage ∧
    (∃ q, FSOp.read ["a.html"] = FSOp.read q) :=
  ⟨(no_filesystem_writes fsPage [Request.mk "GET" "/a.html"]).1,
   (no_filesystem_writes fsPage []).2 "GET" "/a.html" (FSOp.read ["a.html"])
     (by decide)⟩
